import Mathlib

/-!
Verification of the NewsBreeze utility layer.

This file gives a shallow embedding of the three utility modules of the
NewsBreeze repository (`utils/news_fetcher.py`, `utils/summarizer.py`,
`utils/voice_generator.py`) and proves or refutes the behavioural claims
made about them.

Modelling conventions:
* Python strings are `String`; `len` is `String.length` (a character count,
  as in Python); slicing `s[:n]` is `pyTake`.
* A parsed HTML document (the result of `BeautifulSoup(text, 'html.parser')`)
  is a forest `List Node`; tag soup that a function receives as raw text is
  modelled already parsed, since the parser itself is third-party library
  code.  `get_text(separator=' ', strip=True)` is `stripJoin`.
* Fallible external calls (network fetches, model loading, model inference)
  are modelled by `Option`-valued oracles passed in as parameters: `none`
  models the call raising an exception (every `except` block in the source
  is translated explicitly).
* The file system touched by `voice_generator.py` is an explicit `FS` state
  threaded through the functions; `tempfile.mkstemp` draws deterministic
  fresh names from a counter and creates an empty (size 0) file, as the real
  call does.
-/

/-! ### Python string primitives -/

/-- Python `s[:n]`: the first `n` characters of `s`. -/
def pyTake (s : String) (n : Nat) : String := String.mk (s.data.take n)

/-- Python `s.strip()`: remove leading and trailing whitespace. -/
def pyStrip (s : String) : String :=
  String.mk (((s.data.dropWhile Char.isWhitespace).reverse.dropWhile
      Char.isWhitespace).reverse)

/-- Python `len(s.split())`: the number of maximal nonempty runs of
non-whitespace characters. -/
def pyWordCount (s : String) : Nat :=
  ((s.data.splitOnP (fun c => c.isWhitespace)).filter (fun w => w ≠ [])).length

/-- Python `sep.join` for the fixed separator `" "` used by `get_text`. -/
def joinSep : List String → String
  | [] => ""
  | [s] => s
  | s :: t :: rest => s ++ " " ++ joinSep (t :: rest)

/-- BeautifulSoup `get_text(separator=' ', strip=True)` applied to a list of
raw text-node strings: each string is stripped, empty results are skipped,
and the rest are joined with single spaces. -/
def stripJoin (L : List String) : String :=
  joinSep ((L.map pyStrip).filter (fun s => s ≠ ""))

/-! ### Parsed HTML documents -/

/-- A node of a parsed HTML document: either a text node or an element with
a tag name, the values of its `class` attribute, and its children. -/
inductive Node where
  | text (s : String)
  | element (tag : String) (classes : List String) (children : List Node)

mutual

/-- All text-node strings below a node, in document order. -/
def Node.texts : Node → List String
  | .text s => [s]
  | .element _ _ ch => forestTexts ch

/-- All text-node strings of a forest, in document order. -/
def forestTexts : List Node → List String
  | [] => []
  | n :: rest => n.texts ++ forestTexts rest

end

/-- `tag.get_text(separator=' ', strip=True)` for a single element. -/
def getTextStrip (n : Node) : String := stripJoin n.texts

mutual

/-- `soup.find(tag)` restricted to one node: the node itself if its tag
matches, else the first matching descendant in document order. -/
def findTagNode (tag : String) : Node → Option Node
  | .text _ => none
  | .element t cls ch =>
    if t = tag then some (.element t cls ch) else findTagForest tag ch

/-- `soup.find(tag)`: first element with the given tag, in document order. -/
def findTagForest (tag : String) : List Node → Option Node
  | [] => none
  | n :: rest =>
    match findTagNode tag n with
    | some m => some m
    | none => findTagForest tag rest

end

/-- The fixed class names scanned by `fetch_article_content`
(`news_fetcher.py` line 109). -/
def contentClasses : List String :=
  ["content", "article-content", "story-content", "entry-content"]

mutual

/-- `soup.find_all('div', class_=contentClasses)` restricted to one node. -/
def divsNode : Node → List Node
  | .text _ => []
  | .element t cls ch =>
    (if t = "div" ∧ cls.any (fun c => contentClasses.contains c) then
      [Node.element t cls ch] else []) ++ divsForest ch

/-- `soup.find_all('div', class_=contentClasses)` over a forest: all `div`
elements carrying one of the content class names, in document order. -/
def divsForest : List Node → List Node
  | [] => []
  | n :: rest => divsNode n ++ divsForest rest

end

/-- The `for div in ...: content = div.get_text(...); if content: break`
loop of `news_fetcher.py` lines 108-112: the text of the first div whose
text is nonempty, `""` otherwise. -/
def firstDivText : List Node → String
  | [] => ""
  | d :: rest => if getTextStrip d = "" then firstDivText rest else getTextStrip d

/-! ### `news_fetcher.py` -/

/-- The failure string of `fetch_article_content` (line 123). -/
def sentinel : String := "Content not available"

/-- `news_fetcher.py` lines 97-99: the `article = soup.find('article')`
step; `""` when no article (or an empty one) is found. -/
def articleText (doc : List Node) : String :=
  match findTagForest "article" doc with
  | some a => getTextStrip a
  | none => ""

/-- `news_fetcher.py` lines 102-105: the `main = soup.find('main')` step. -/
def mainText (doc : List Node) : String :=
  match findTagForest "main" doc with
  | some m => getTextStrip m
  | none => ""

/-- `news_fetcher.py` lines 94-112: the value of the local `content` after
the article / main / classed-div cascade (each later stage only runs while
`content` is still empty, mirroring the `if not content:` guards). -/
def chosenContent (doc : List Node) : String :=
  if articleText doc = "" then
    if mainText doc = "" then firstDivText (divsForest doc) else mainText doc
  else articleText doc

/-- `fetch_article_content(url, max_length)` (`news_fetcher.py` lines
72-123).  `page` is the outcome of `requests.get` + `raise_for_status` +
parsing: `none` models any exception on that path (network error, timeout,
non-success status), which the `except` block turns into the sentinel.
When the cascade leaves `content` empty the code reads `soup.body`; if the
document has no body element the attribute access raises and the `except`
block again yields the sentinel. -/
def fetch_article_content (page : Option (List Node)) (max_length : Nat) : String :=
  match page with
  | none => sentinel
  | some doc =>
    if chosenContent doc = "" then
      match findTagForest "body" doc with
      | some b => pyTake (getTextStrip b) max_length
      | none => sentinel
    else pyTake (chosenContent doc) max_length

/-- A feedparser entry: dict-like, each field present or absent.  The raw
`description` / `summary` strings are modelled in parsed form, since
`clean_html` immediately parses them. -/
structure Entry where
  title : Option String
  link : Option String
  description : Option (List Node)
  summary : Option (List Node)
  published : Option String

/-- A parsed feed: `bozo_exception` flag plus its entries. -/
structure Feed where
  bozoException : Bool
  entries : List Entry

/-- An item of the list returned by `fetch_news`. -/
structure NewsItem where
  title : String
  link : String
  description : String
  published : String

/-- `clean_html` (`news_fetcher.py` lines 55-70):
`BeautifulSoup(html_text).get_text(separator=' ', strip=True)`; `get_text`
does not raise on parsed input, so the `except` branch is unreachable. -/
def clean_html (doc : List Node) : String := stripJoin (forestTexts doc)

/-- The cleaned initial description of an entry (`news_fetcher.py` line 36):
`clean_html(entry.get('description', entry.get('summary', 'No description')))`. -/
def initialDesc (e : Entry) : String :=
  clean_html (e.description.getD (e.summary.getD [Node.text "No description"]))

/-- The per-entry body of the loop in `fetch_news` (`news_fetcher.py` lines
31-47).  `pageOf` is the network oracle used by `fetch_article_content`.
The item dict always contains a `'link'` key, so the guard on line 41
reduces to the length test; `fetch_article_content` is total (it catches
its own exceptions), so the `except` on lines 44-45 is unreachable and the
short description is always overwritten by its result. -/
def processEntry (pageOf : String → Option (List Node)) (e : Entry) : NewsItem :=
  if (initialDesc e).length < 100 then
    ⟨e.title.getD "No title", e.link.getD "#",
      fetch_article_content (pageOf (e.link.getD "#")) 1000,
      e.published.getD "No date"⟩
  else
    ⟨e.title.getD "No title", e.link.getD "#", initialDesc e,
      e.published.getD "No date"⟩

/-- `fetch_news(rss_url)` (`news_fetcher.py` lines 10-53), over the parsed
feed: an empty list when the feed carries a `bozo_exception`, otherwise one
`NewsItem` per entry. -/
def fetch_news (pageOf : String → Option (List Node)) (feed : Feed) :
    List NewsItem :=
  if feed.bozoException = true then [] else feed.entries.map (processEntry pageOf)

example :
    fetch_article_content
      (some [Node.element "article" [] [Node.text "Full article body text..."]]) 1000
      = "Full article body text..." := rfl

example :
    fetch_article_content
      (some [Node.element "body" []
        [Node.element "main" [] [], Node.element "div" ["content"] [Node.text "X"]]]) 1000
      = "X" := rfl

example : fetch_article_content none 1000 = "Content not available" := rfl

example : clean_html [Node.element "p" [] [Node.text "Short"]] = "Short" := rfl

example :
    fetch_news (fun _ => none)
      ⟨false, [⟨some "Test", some "http://a", some [Node.element "p" [] [Node.text "Short"]],
        none, none⟩]⟩
      = [⟨"Test", "http://a", "Content not available", "No date"⟩] := rfl

/-! ### `summarizer.py` -/

/-- The loaded summarization pipeline, as the oracle for the external
Hugging Face model.  `encodeDecode text budget` models
`tokenizer.decode(tokenizer.encode(text, truncation=True, max_length=budget),
skip_special_tokens=True)`; `run text maxLen minLen` models calling the
pipeline and projecting `summary_text` out of each element of the returned
list.  A `none` result models the call raising an exception. -/
structure Pipeline where
  encodeDecode : String → Nat → Option String
  run : String → Nat → Nat → Option (List String)

/-- The state seen by `summarize_text`: the result of `load_summarizer()`,
which is `none` when loading the model failed (`summarizer.py` lines 52-54). -/
structure SumEnv where
  pipeline : Option Pipeline

/-- `summarize_text(text, max_length, min_length)` (`summarizer.py` lines
56-104).  Every failure — load failure, tokenization exception, inference
exception, or an empty result list — falls into a branch that returns the
original `text`, mirroring the early returns and the outer `except`. -/
def summarize_text (env : SumEnv) (text : String) (max_length min_length : Nat) :
    String :=
  if pyWordCount text < min_length then text
  else
    match env.pipeline with
    | none => text
    | some pl =>
      match pl.encodeDecode text 1024 with
      | none => text
      | some truncated =>
        match pl.run truncated max_length min_length with
        | none => text
        | some [] => text
        | some (s :: _) => s

example :
    summarize_text ⟨some ⟨fun _ _ => some "x", fun _ _ _ => some ["SUMMARY"]⟩⟩
      "too short" 150 30 = "too short" := rfl

/-! ### `voice_generator.py` -/

/-- The file-system state touched by `voice_generator.py`: an association
list from path to size in bytes (later entries shadowed by earlier ones),
the set of directories, and the counter from which `tempfile.mkstemp` draws
fresh names. -/
structure FS where
  files : List (String × Nat)
  dirs : List String
  tmpCounter : Nat

/-- `os.path.exists` for files. -/
def FS.fileExists (fs : FS) (p : String) : Bool := (fs.files.lookup p).isSome

/-- `os.path.getsize`, `none` when the file does not exist. -/
def FS.fileSize (fs : FS) (p : String) : Option Nat := fs.files.lookup p

/-- A truncating write of `n` bytes to `p` (`open(p, 'w')` followed by a
write, or a library writing an output file). -/
def FS.writeFile (fs : FS) (p : String) (n : Nat) : FS :=
  ⟨(p, n) :: fs.files, fs.dirs, fs.tmpCounter⟩

/-- `os.makedirs(d, exist_ok=True)`. -/
def FS.mkdirp (fs : FS) (d : String) : FS :=
  ⟨fs.files, if d ∈ fs.dirs then fs.dirs else d :: fs.dirs, fs.tmpCounter⟩

/-- `tempfile.mkstemp(suffix='.wav')` followed by `os.close(fd)`: creates a
fresh empty file and returns its path. -/
def FS.mkstemp (fs : FS) : String × FS :=
  ("tmp" ++ toString fs.tmpCounter ++ ".wav",
    ⟨("tmp" ++ toString fs.tmpCounter ++ ".wav", 0) :: fs.files, fs.dirs,
      fs.tmpCounter + 1⟩)

/-- The fixed celebrity-to-sample mapping of `get_reference_audio_path`
(`voice_generator.py` lines 62-68). -/
def reference_files : List (String × String) :=
  [("Morgan Freeman", "reference_audio/morgan_freeman.wav"),
   ("Oprah Winfrey", "reference_audio/oprah_winfrey.wav"),
   ("Barack Obama", "reference_audio/barack_obama.wav"),
   ("Emma Watson", "reference_audio/emma_watson.wav"),
   ("David Attenborough", "reference_audio/david_attenborough.wav")]

/-- `get_reference_audio_path(celebrity)` (`voice_generator.py` lines
51-87): the mapped path when the celebrity is in the mapping and the file
exists on disk; otherwise `None`, after `os.makedirs("reference_audio",
exist_ok=True)`. -/
def get_reference_audio_path (fs : FS) (celebrity : String) :
    Option String × FS :=
  match reference_files.lookup celebrity with
  | some p =>
    if fs.fileExists p then (some p, fs)
    else (none, fs.mkdirp "reference_audio")
  | none => (none, fs.mkdirp "reference_audio")

/-- The message written to the placeholder file when the TTS package is not
installed (`voice_generator.py` line 113). -/
def tts_message : String :=
  "TTS is not available. Please install the TTS package to use voice cloning."

/-- The external circumstances `generate_voice_clone` runs under:
whether `load_tts_model()` reports the TTS package present; whether
constructing the `TTS(...)` model raises (covering both the API-key and the
local branch, which differ only in their arguments); whether
`tts_to_file` raises; the number of bytes `tts_to_file` writes on success;
whether pydub imported (`AUDIO_PROCESSING_AVAILABLE`); whether the
load/normalize/export step of `process_audio` raises; and the exported size
when it succeeds. -/
structure VoiceEnv where
  ttsAvailable : Bool
  initRaises : Bool
  ttsToFileRaises : Bool
  audioSize : Nat
  audioProcessingAvailable : Bool
  normalizeFails : Bool
  normalizedSize : Nat

/-- `process_audio(audio_path)` (`voice_generator.py` lines 186-220): skip
when processing is unavailable, the file is missing or empty, or
normalization fails; otherwise rewrite the file with the normalized audio. -/
def process_audio (env : VoiceEnv) (fs : FS) (p : String) : FS :=
  if env.audioProcessingAvailable = false then fs
  else
    match fs.files.lookup p with
    | none => fs
    | some 0 => fs
    | some _ => if env.normalizeFails = true then fs else fs.writeFile p env.normalizedSize

/-- `generate_voice_clone(text, celebrity)` (`voice_generator.py` lines
89-184).  Paths in source order: TTS unavailable → placeholder file holding
`tts_message`; model construction raises → the `except` block makes a fresh
empty placeholder; otherwise resolve the reference sample (with its mkdir
side effect), make the output temp file, synthesize (the reference/default
branches write the same output file), raise → fresh empty placeholder from
the `except` block; then normalize if audio processing is available.
`tempfile.mkstemp` is modelled as always succeeding, so the inner
`except: return None` (line 183-184) is not reachable in the model. -/
def generate_voice_clone (env : VoiceEnv) (fs : FS) (_tex celebrity : String) :
    Option String × FS :=
  if env.ttsAvailable = false then
    match fs.mkstemp with
    | (p, fs1) => (some p, fs1.writeFile p tts_message.length)
  else if env.initRaises = true then
    match fs.mkstemp with
    | (p, fs1) => (some p, fs1)
  else
    match get_reference_audio_path fs celebrity with
    | (_, fs1) =>
      match fs1.mkstemp with
      | (p, fs2) =>
        if env.ttsToFileRaises = true then
          match fs2.mkstemp with
          | (p2, fs3) => (some p2, fs3)
        else
          if env.audioProcessingAvailable = true then
            (some p, process_audio env (fs2.writeFile p env.audioSize) p)
          else (some p, fs2.writeFile p env.audioSize)

/-- The size of the file at the returned path, in the final file system. -/
def resultSize (r : Option String × FS) : Option Nat :=
  match r.1 with
  | some p => r.2.fileSize p
  | none => none

/-- Whether a nonempty file sits at the returned path. -/
def resultSizePos (r : Option String × FS) : Bool :=
  match resultSize r with
  | some n => n ≠ 0
  | none => false

example :
    resultSize (generate_voice_clone ⟨false, false, false, 0, false, false, 0⟩
      ⟨[], [], 0⟩ "hello" "Morgan Freeman") = some 74 := by decide

example :
    resultSize (generate_voice_clone ⟨true, true, false, 9, false, false, 9⟩
      ⟨[], [], 0⟩ "hello" "Morgan Freeman") = some 0 := rfl

example :
    resultSize (generate_voice_clone ⟨true, false, false, 9, true, false, 44⟩
      ⟨[], [], 0⟩ "hello" "Morgan Freeman") = some 44 := rfl

/-! ### Absence of HTML markup

`html.parser` never leaves a tag opener (a `<` immediately followed by a
letter or `/`) inside a text node: such a sequence always starts a tag.
`TagFree` states that property of a string, and a document produced by the
parser satisfies `DocWF`. -/

/-- The adjacent-character property: this pair does not open an HTML tag. -/
def notTagOpener (a b : Char) : Prop := ¬(a = '<' ∧ (b.isAlpha = true ∨ b = '/'))

instance : DecidableRel notTagOpener := fun a b =>
  inferInstanceAs (Decidable (¬(a = '<' ∧ (b.isAlpha = true ∨ b = '/'))))

/-- Executable scan for a tag opener in a character list. -/
def tagFreeB : List Char → Bool
  | [] => true
  | [_] => true
  | a :: b :: rest => !(a == '<' && (b.isAlpha || b == '/')) && tagFreeB (b :: rest)

/-- A string containing no tag opener, i.e. no raw HTML markup. -/
def TagFree (s : String) : Prop := List.Chain' notTagOpener s.data

theorem tagFreeB_iff : ∀ l : List Char, tagFreeB l = true ↔ List.Chain' notTagOpener l
  | [] => by simp [tagFreeB]
  | [a] => by simp [tagFreeB]
  | a :: b :: rest => by
    rw [tagFreeB, List.chain'_cons, Bool.and_eq_true, tagFreeB_iff (b :: rest)]
    constructor
    · rintro ⟨h1, h2⟩
      refine ⟨?_, h2⟩
      intro hbad
      rw [Bool.not_eq_true', Bool.and_eq_false_iff] at h1
      rcases h1 with h1 | h1
      · rw [beq_eq_false_iff_ne] at h1
        exact h1 hbad.1
      · rcases hbad.2 with hb | hb
        · rw [Bool.or_eq_false_iff] at h1
          exact absurd hb (by simp [h1.1])
        · rw [Bool.or_eq_false_iff, beq_eq_false_iff_ne] at h1
          exact h1.2 hb
    · rintro ⟨h1, h2⟩
      refine ⟨?_, h2⟩
      rw [Bool.not_eq_true', Bool.and_eq_false_iff]
      by_cases ha : a = '<'
      · right
        rw [Bool.or_eq_false_iff]
        constructor
        · by_contra hb
          rw [Bool.not_eq_false] at hb
          exact h1 ⟨ha, Or.inl hb⟩
        · rw [beq_eq_false_iff_ne]
          intro hb
          exact h1 ⟨ha, Or.inr hb⟩
      · left
        rw [beq_eq_false_iff_ne]
        exact ha

instance (s : String) : Decidable (TagFree s) :=
  decidable_of_iff (tagFreeB s.data = true) (tagFreeB_iff s.data)

/-- Every text node of a parsed document is free of tag openers. -/
def DocWF (doc : List Node) : Prop := ∀ s ∈ forestTexts doc, TagFree s

/-- Both description-bearing fields of an entry hold parser output. -/
def EntryWF (e : Entry) : Prop :=
  (∀ d, e.description = some d → DocWF d) ∧ (∀ d, e.summary = some d → DocWF d)

/-! ### Spec-side definitions and concrete inputs used by the claims -/

mutual

/-- First element (of any tag) whose class list meets `contentClasses`,
restricted to one node — claim C9 reads step 3 as "first element whose
class is one of a fixed set", with no tag restriction. -/
def classElemNode : Node → Option Node
  | .text _ => none
  | .element t cls ch =>
    if cls.any (fun c => contentClasses.contains c) then some (.element t cls ch)
    else classElemForest ch

/-- First element (of any tag) with a matching class, over a forest. -/
def classElemForest : List Node → Option Node
  | [] => none
  | n :: rest =>
    match classElemNode n with
    | some m => some m
    | none => classElemForest rest

end

/-- Steps 2-4 of claim C9 read literally: the first `<main>` element's text
if a `<main>` is present (empty or not), else the first matching-class
element's text, else the body text. -/
def claimedAfterArticle (doc : List Node) (max_length : Nat) : String :=
  match findTagForest "main" doc with
  | some m => pyTake (getTextStrip m) max_length
  | none =>
    match classElemForest doc with
    | some e => pyTake (getTextStrip e) max_length
    | none =>
      match findTagForest "body" doc with
      | some b => pyTake (getTextStrip b) max_length
      | none => sentinel

/-- Claim C9's selection rule formalised from its own words, first match
winning: the first `<article>` if present and non-empty, else steps 2-4. -/
def extractContentClaimed (doc : List Node) (max_length : Nat) : String :=
  match findTagForest "article" doc with
  | some a =>
    if getTextStrip a = "" then claimedAfterArticle doc max_length
    else pyTake (getTextStrip a) max_length
  | none => claimedAfterArticle doc max_length

/-- The candidate texts the code actually cascades through, in order. -/
def selectionCandidates (doc : List Node) : List String :=
  [articleText doc, mainText doc, firstDivText (divsForest doc)]

/-- The amended selection rule of C9: the first non-empty candidate text
wins; only when all three are empty does the body (or, with no body
element, the sentinel) supply the result. -/
def extractAmended (doc : List Node) (max_length : Nat) : String :=
  match (selectionCandidates doc).filter (fun s => s ≠ "") with
  | c :: _ => pyTake c max_length
  | [] =>
    match findTagForest "body" doc with
    | some b => pyTake (getTextStrip b) max_length
    | none => sentinel

/-- A page whose `<main>` is present but empty while a content-classed div
has text: the claimed rule stops at `<main>`, the code does not. -/
def docMainEmpty : List Node :=
  [Node.element "body" []
    [Node.element "main" [] [], Node.element "div" ["content"] [Node.text "X"]]]

/-- A feed entry with a short description, for exercising enrichment. -/
def entryShort : Entry :=
  ⟨some "Test", some "http://a", some [Node.element "p" [] [Node.text "Short"]],
    none, none⟩

/-- A feed entry missing every field. -/
def entryEmptyFields : Entry := ⟨none, none, none, none, none⟩

/-- A description document longer than 100 characters once cleaned, so that
enrichment is not triggered. -/
def longDescDoc : List Node :=
  [Node.text "This description text is intentionally made longer than one hundred characters so that the enrichment step is not triggered at all."]

/-- A feed entry whose `title` field is present but holds the empty string. -/
def entryEmptyTitle : Entry :=
  ⟨some "", some "http://a", some longDescDoc, none, some "d"⟩

/-- A feed pairing the empty-title entry with the all-missing entry. -/
def feedEdge : Feed := ⟨false, [entryEmptyTitle, entryEmptyFields]⟩

/-- A well-formed feed entry used to witness the markup-freeness claim. -/
def entryC8 : Entry :=
  ⟨some "T", some "http://x", some [Node.element "p" [] [Node.text "Hello there"]],
    none, none⟩

theorem notTagOpener_space_left (b : Char) : notTagOpener ' ' b := by
  intro h
  exact absurd h.1 (by decide)

theorem notTagOpener_space_right (a : Char) : notTagOpener a ' ' := by
  intro h
  rcases h.2 with h2 | h2
  · exact absurd h2 (by decide)
  · exact absurd h2 (by decide)

theorem tagFree_empty : TagFree "" := by decide

theorem tagFree_sentinel : TagFree sentinel := by decide

theorem tagFree_pyStrip {s : String} (h : TagFree s) : TagFree (pyStrip s) := by
  have h1 : List.Chain' notTagOpener (s.data.dropWhile Char.isWhitespace) :=
    List.Chain'.suffix h
      ⟨_, List.takeWhile_append_dropWhile Char.isWhitespace s.data⟩
  have h2 : List.Chain' (flip notTagOpener)
      ((s.data.dropWhile Char.isWhitespace).reverse) :=
    List.chain'_reverse.mpr h1
  have h3 : List.Chain' (flip notTagOpener)
      (((s.data.dropWhile Char.isWhitespace).reverse).dropWhile Char.isWhitespace) :=
    List.Chain'.suffix h2
      ⟨_, List.takeWhile_append_dropWhile Char.isWhitespace
        (s.data.dropWhile Char.isWhitespace).reverse⟩
  exact List.chain'_reverse.mpr h3

theorem tagFree_pyTake {s : String} (h : TagFree s) (n : Nat) :
    TagFree (pyTake s n) := List.Chain'.take h n

theorem tagFree_joinSep {L : List String} (h : ∀ s ∈ L, TagFree s) :
    TagFree (joinSep L) := by
  induction L with
  | nil => exact tagFree_empty
  | cons s rest ih =>
    cases rest with
    | nil => exact h s (List.mem_cons_self s [])
    | cons t r =>
      have hs : TagFree s := h s (List.mem_cons_self s (t :: r))
      have hrest : TagFree (joinSep (t :: r)) :=
        ih (fun x hx => h x (List.mem_cons_of_mem s hx))
      have key : List.Chain' notTagOpener
          (s.data ++ ' ' :: (joinSep (t :: r)).data) :=
        List.chain'_append.mpr ⟨hs,
          List.chain'_cons'.mpr ⟨fun y _ => notTagOpener_space_left y, hrest⟩,
          fun x _ y hy => by
            simp only [List.head?_cons, Option.mem_def, Option.some.injEq] at hy
            subst hy
            exact notTagOpener_space_right x⟩
      show List.Chain' notTagOpener (s ++ " " ++ joinSep (t :: r)).data
      rw [String.data_append, String.data_append]
      have hsp : (" " : String).data = [' '] := rfl
      rw [hsp, List.append_assoc, List.singleton_append]
      exact key

theorem tagFree_stripJoin {L : List String} (h : ∀ s ∈ L, TagFree s) :
    TagFree (stripJoin L) := by
  apply tagFree_joinSep
  intro s hs
  rw [List.mem_filter] at hs
  obtain ⟨hmem, -⟩ := hs
  obtain ⟨x, hx, rfl⟩ := List.mem_map.mp hmem
  exact tagFree_pyStrip (h x hx)

theorem tagFree_getTextStrip {n : Node} (h : ∀ s ∈ n.texts, TagFree s) :
    TagFree (getTextStrip n) := tagFree_stripJoin h

mutual

theorem findTagNode_texts_sub (tag : String) (n : Node) (m : Node)
    (h : findTagNode tag n = some m) : ∀ s ∈ m.texts, s ∈ n.texts := by
  match n with
  | .text u => simp [findTagNode] at h
  | .element t cls ch =>
    unfold findTagNode at h
    split at h
    · cases h
      exact fun s hs => hs
    · intro s hs
      have := findTagForest_texts_sub tag ch m h s hs
      simpa [Node.texts] using this

theorem findTagForest_texts_sub (tag : String) (l : List Node) (m : Node)
    (h : findTagForest tag l = some m) : ∀ s ∈ m.texts, s ∈ forestTexts l := by
  match l with
  | [] => simp [findTagForest] at h
  | n :: rest =>
    unfold findTagForest at h
    cases hn : findTagNode tag n with
    | some k =>
      rw [hn] at h
      cases h
      intro s hs
      have := findTagNode_texts_sub tag n m hn s hs
      simp [forestTexts]
      exact Or.inl this
    | none =>
      rw [hn] at h
      intro s hs
      have := findTagForest_texts_sub tag rest m h s hs
      simp [forestTexts]
      exact Or.inr this

end

mutual

theorem divsNode_texts_sub (n : Node) (d : Node) (hd : d ∈ divsNode n) :
    ∀ s ∈ d.texts, s ∈ n.texts := by
  match n with
  | .text u => simp [divsNode] at hd
  | .element t cls ch =>
    unfold divsNode at hd
    rw [List.mem_append] at hd
    cases hd with
    | inl h1 =>
      split at h1
      · rw [List.mem_singleton] at h1
        subst h1
        exact fun s hs => hs
      · simp at h1
    | inr h2 =>
      intro s hs
      have := divsForest_texts_sub ch d h2 s hs
      simpa [Node.texts] using this

theorem divsForest_texts_sub (l : List Node) (d : Node) (hd : d ∈ divsForest l) :
    ∀ s ∈ d.texts, s ∈ forestTexts l := by
  match l with
  | [] => simp [divsForest] at hd
  | n :: rest =>
    unfold divsForest at hd
    rw [List.mem_append] at hd
    cases hd with
    | inl h1 =>
      intro s hs
      simp [forestTexts]
      exact Or.inl (divsNode_texts_sub n d h1 s hs)
    | inr h2 =>
      intro s hs
      simp [forestTexts]
      exact Or.inr (divsForest_texts_sub rest d h2 s hs)

end

theorem tagFree_firstDivText {L : List Node}
    (h : ∀ d ∈ L, TagFree (getTextStrip d)) : TagFree (firstDivText L) := by
  induction L with
  | nil => exact tagFree_empty
  | cons d rest ih =>
    unfold firstDivText
    split
    · exact ih (fun x hx => h x (List.mem_cons_of_mem d hx))
    · exact h d (List.mem_cons_self d rest)

theorem tagFree_articleText {doc : List Node} (h : DocWF doc) :
    TagFree (articleText doc) := by
  unfold articleText
  cases hf : findTagForest "article" doc with
  | none => exact tagFree_empty
  | some a =>
    exact tagFree_getTextStrip
      (fun s hs => h s (findTagForest_texts_sub _ doc a hf s hs))

theorem tagFree_mainText {doc : List Node} (h : DocWF doc) :
    TagFree (mainText doc) := by
  unfold mainText
  cases hf : findTagForest "main" doc with
  | none => exact tagFree_empty
  | some m =>
    exact tagFree_getTextStrip
      (fun s hs => h s (findTagForest_texts_sub _ doc m hf s hs))

theorem tagFree_chosenContent {doc : List Node} (h : DocWF doc) :
    TagFree (chosenContent doc) := by
  unfold chosenContent
  split
  · split
    · apply tagFree_firstDivText
      intro d hd
      exact tagFree_getTextStrip
        (fun s hs => h s (divsForest_texts_sub doc d hd s hs))
    · exact tagFree_mainText h
  · exact tagFree_articleText h

theorem tagFree_fetch_article_content (page : Option (List Node)) (maxLen : Nat)
    (hp : ∀ d, page = some d → DocWF d) :
    TagFree (fetch_article_content page maxLen) := by
  cases page with
  | none => exact tagFree_sentinel
  | some doc =>
    have hw : DocWF doc := hp doc rfl
    simp only [fetch_article_content]
    by_cases hc : chosenContent doc = ""
    · rw [if_pos hc]
      cases hb : findTagForest "body" doc with
      | none => exact tagFree_sentinel
      | some b =>
        exact tagFree_pyTake
          (tagFree_getTextStrip
            (fun s hs => hw s (findTagForest_texts_sub _ doc b hb s hs))) _
    · rw [if_neg hc]
      exact tagFree_pyTake (tagFree_chosenContent hw) _

theorem tagFree_clean_html {doc : List Node} (h : DocWF doc) :
    TagFree (clean_html doc) := tagFree_stripJoin h

/-! ### General helper lemmas -/

theorem pyTake_length_le (s : String) (n : Nat) : (pyTake s n).length ≤ n := by
  unfold pyTake
  rw [String.length_mk, List.length_take]
  exact Nat.min_le_left _ _

theorem mkdirp_mem (fs : FS) (d : String) : d ∈ (fs.mkdirp d).dirs := by
  show d ∈ (if d ∈ fs.dirs then fs.dirs else d :: fs.dirs)
  split
  · assumption
  · exact List.mem_cons_self d fs.dirs

/-! ### The claims -/

/-- Claim C5: for every input text whose word count is strictly below
`min_length`, `summarize_text` returns the input unchanged, whatever the
state of the summarization model — the result does not depend on the
pipeline at all, so no model is loaded or invoked. -/
theorem summarize_text_short_input_identity (env : SumEnv) (text : String)
    (max_length min_length : Nat) (h : pyWordCount text < min_length) :
    summarize_text env text max_length min_length = text := by
  unfold summarize_text
  rw [if_pos h]

/-- Witness for C5: a 5-word text below the default `min_length = 30` is
returned unchanged even under a pipeline that would return other output. -/
theorem summarize_text_short_input_identity_witness :
    summarize_text ⟨some ⟨fun _ _ => some "tok", fun _ _ _ => some ["MODEL OUTPUT"]⟩⟩
      "a short piece of text" 150 30 = "a short piece of text" :=
  summarize_text_short_input_identity _ _ _ _ (by decide)

/-- Claim C6: if any stage of summarization fails — the model fails to
load, tokenization raises, inference raises, or the model returns an empty
list — `summarize_text` returns the original input text (and, being a total
function, raises nothing). -/
theorem summarize_text_failure_identity (env : SumEnv) (text : String)
    (max_length min_length : Nat)
    (h : env.pipeline = none
      ∨ ∃ pl, env.pipeline = some pl ∧
          (pl.encodeDecode text 1024 = none
            ∨ ∃ tr, pl.encodeDecode text 1024 = some tr ∧
                (pl.run tr max_length min_length = none
                  ∨ pl.run tr max_length min_length = some []))) :
    summarize_text env text max_length min_length = text := by
  unfold summarize_text
  by_cases hshort : pyWordCount text < min_length
  · rw [if_pos hshort]
  · rw [if_neg hshort]
    rcases h with h | ⟨pl, hpl, h⟩
    · rw [h]
    · rcases h with h | ⟨tr, htr, h⟩
      · simp only [hpl, h]
      · rcases h with h | h
        · simp only [hpl, htr, h]
        · simp only [hpl, htr, h]

/-- Witness for C6: with the model failing to load, a text that passes the
length gate still comes back unchanged. -/
theorem summarize_text_failure_identity_witness :
    summarize_text ⟨none⟩ "hello world" 150 0 = "hello world" :=
  summarize_text_failure_identity ⟨none⟩ "hello world" 150 0 (Or.inl rfl)

/-- Claim C3 (amended): the result of `fetch_article_content` is at most
`max_length` characters whenever `max_length` is at least the length of the
failure sentinel (21); the sentinel itself is returned untruncated, so the
bound as originally stated fails for smaller `max_length`. -/
theorem fetch_article_content_length_le (page : Option (List Node))
    (max_length : Nat) (h : sentinel.length ≤ max_length) :
    (fetch_article_content page max_length).length ≤ max_length := by
  cases page with
  | none => exact h
  | some doc =>
    simp only [fetch_article_content]
    by_cases hc : chosenContent doc = ""
    · rw [if_pos hc]
      cases findTagForest "body" doc with
      | none => exact h
      | some b => exact pyTake_length_le _ _
    · rw [if_neg hc]
      exact pyTake_length_le _ _

/-- Witness for C3: at the default `max_length = 1000` the bound holds on
the failure path. -/
theorem fetch_article_content_length_le_witness :
    (fetch_article_content none 1000).length ≤ 1000 :=
  fetch_article_content_length_le none 1000 (by decide)

/-- Counterexample for C3 as stated: with `max_length = 5` the failure path
returns the 21-character sentinel, exceeding the bound. -/
theorem fetch_article_content_sentinel_exceeds :
    ¬ (fetch_article_content none 5).length ≤ 5 := by decide

/-- Claim C10: `get_reference_audio_path` returns the mapped path exactly
when the celebrity is in the fixed mapping and the file exists on disk; in
every other case it returns `none` and ensures the `reference_audio`
directory exists.  It never touches files, and on success it leaves the
file system untouched entirely. -/
theorem get_reference_audio_path_spec (fs : FS) (celebrity : String) :
    (∀ p, (get_reference_audio_path fs celebrity).1 = some p ↔
      (reference_files.lookup celebrity = some p ∧ fs.fileExists p = true)) ∧
    ((get_reference_audio_path fs celebrity).1 = none →
      "reference_audio" ∈ (get_reference_audio_path fs celebrity).2.dirs) ∧
    ((get_reference_audio_path fs celebrity).1.isSome = true →
      (get_reference_audio_path fs celebrity).2 = fs) ∧
    (get_reference_audio_path fs celebrity).2.files = fs.files := by
  cases hl : reference_files.lookup celebrity with
  | none =>
    have he : get_reference_audio_path fs celebrity
        = (none, fs.mkdirp "reference_audio") := by
      unfold get_reference_audio_path
      simp only [hl]
    rw [he]
    refine ⟨fun p => ⟨fun hc => Option.noConfusion hc,
        fun hc => Option.noConfusion hc.1⟩,
      fun _ => mkdirp_mem fs _, fun hs => Bool.noConfusion hs, rfl⟩
  | some p0 =>
    by_cases hex : fs.fileExists p0 = true
    · have he : get_reference_audio_path fs celebrity = (some p0, fs) := by
        unfold get_reference_audio_path
        simp only [hl]
        rw [if_pos hex]
      rw [he]
      refine ⟨fun p => ⟨fun hc => ?_, fun hc => hc.1⟩,
        fun hn => Option.noConfusion hn, fun _ => rfl, rfl⟩
      injection hc with hc
      subst hc
      exact ⟨rfl, hex⟩
    · have he : get_reference_audio_path fs celebrity
          = (none, fs.mkdirp "reference_audio") := by
        unfold get_reference_audio_path
        simp only [hl]
        rw [if_neg hex]
      rw [he]
      refine ⟨fun p => ⟨fun hc => Option.noConfusion hc, fun hc => ?_⟩,
        fun _ => mkdirp_mem fs _, fun hs => Bool.noConfusion hs, rfl⟩
      have hpp : p0 = p := by
        injection hc.1
      subst hpp
      exact absurd hc.2 hex

/-- Witness for C10: on an empty disk, asking for a mapped celebrity yields
`none` and the `reference_audio` directory is created. -/
theorem get_reference_audio_path_spec_witness :
    "reference_audio" ∈ (get_reference_audio_path ⟨[], [], 0⟩ "Morgan Freeman").2.dirs :=
  (get_reference_audio_path_spec ⟨[], [], 0⟩ "Morgan Freeman").2.1 rfl

/-- Claim C4 (amended): on a page with no `<article>`, no `<main>`, and no
content-classed `div`, `fetch_article_content` falls back to the body: the
body element's text truncated to `max_length` when a body element exists
(so an empty body element yields `""`), and the sentinel only when the
document has no body element at all. -/
theorem fetch_article_content_body_fallback (doc : List Node) (max_length : Nat)
    (ha : findTagForest "article" doc = none)
    (hm : findTagForest "main" doc = none)
    (hd : divsForest doc = []) :
    fetch_article_content (some doc) max_length =
      (match findTagForest "body" doc with
       | some b => pyTake (getTextStrip b) max_length
       | none => sentinel) := by
  have ha' : articleText doc = "" := by
    unfold articleText
    rw [ha]
  have hm' : mainText doc = "" := by
    unfold mainText
    rw [hm]
  have hc : chosenContent doc = "" := by
    unfold chosenContent
    rw [ha', hm', hd, if_pos rfl, if_pos rfl]
    rfl
  simp only [fetch_article_content]
  rw [if_pos hc]

/-- Witness for C4: a page consisting of a body with text falls back to
that text. -/
theorem fetch_article_content_body_fallback_witness :
    fetch_article_content (some [Node.element "body" [] [Node.text "B"]]) 1000 = "B" :=
  (fetch_article_content_body_fallback [Node.element "body" [] [Node.text "B"]]
    1000 rfl rfl rfl).trans rfl

/-- Counterexample for C4 as stated: a page that is nothing but an empty
body element has no article, no main, and no matching class, yet the
function returns `""`, not the sentinel. -/
theorem fetch_article_content_empty_body_not_sentinel :
    fetch_article_content (some [Node.element "body" [] []]) 1000 = "" ∧
    findTagForest "article" [Node.element "body" [] []] = (none : Option Node) ∧
    findTagForest "main" [Node.element "body" [] []] = (none : Option Node) ∧
    divsForest [Node.element "body" [] []] = ([] : List Node) ∧
    ¬ fetch_article_content (some [Node.element "body" [] []]) 1000 = sentinel := by
  refine ⟨rfl, rfl, rfl, rfl, ?_⟩
  decide

/-- Claim C9 (amended): the selection is not "first match wins" but "first
non-empty text wins": the code uses the first non-empty string among the
first `<article>`'s text, the first `<main>`'s text and the first
content-classed `div` with non-empty text (the class scan looks at `div`
elements only), and falls back to the body element's text — the sentinel
only without a body element.  A present-but-empty `<main>` (or class match)
is skipped, not selected. -/
theorem fetch_article_content_first_nonempty (doc : List Node) (max_length : Nat) :
    fetch_article_content (some doc) max_length = extractAmended doc max_length := by
  unfold extractAmended selectionCandidates
  simp only [fetch_article_content]
  by_cases h1 : articleText doc = ""
  · by_cases h2 : mainText doc = ""
    · by_cases h3 : firstDivText (divsForest doc) = ""
      · have hc : chosenContent doc = "" := by
          unfold chosenContent
          rw [if_pos h1, if_pos h2]
          exact h3
        rw [if_pos hc, h1, h2, h3]
        simp [List.filter]
      · have hc : chosenContent doc = firstDivText (divsForest doc) := by
          unfold chosenContent
          rw [if_pos h1, if_pos h2]
        rw [hc, if_neg h3, h1, h2]
        simp [List.filter, h3]
    · have hc : chosenContent doc = mainText doc := by
        unfold chosenContent
        rw [if_pos h1, if_neg h2]
      rw [hc, if_neg h2, h1]
      simp [List.filter, h2]
  · have hc : chosenContent doc = articleText doc := by
      unfold chosenContent
      rw [if_neg h1]
    rw [hc, if_neg h1]
    simp [List.filter, h1]

/-- Counterexample for C9 as stated: on `docMainEmpty` the code skips the
empty `<main>` and returns the classed div's text `"X"`, while the claimed
first-match rule stops at the `<main>` and returns `""`. -/
theorem fetch_article_content_skips_empty_main :
    fetch_article_content (some docMainEmpty) 1000 = "X" ∧
    extractContentClaimed docMainEmpty 1000 = "" ∧
    ¬ fetch_article_content (some docMainEmpty) 1000
        = extractContentClaimed docMainEmpty 1000 := by
  refine ⟨rfl, rfl, ?_⟩
  decide

/-- Claim C2 (amended): for every entry whose cleaned description is
shorter than 100 characters enrichment is attempted, but a failing
enrichment does not keep the original description: `fetch_article_content`
catches its own failures, so the item's description becomes whatever it
returns — the sentinel `"Content not available"` when the page fetch fails
(the keep-original `except` branch in `fetch_news` is unreachable). -/
theorem processEntry_enrichment (pageOf : String → Option (List Node)) (e : Entry)
    (h : (initialDesc e).length < 100) :
    (processEntry pageOf e).description =
      fetch_article_content (pageOf (e.link.getD "#")) 1000 ∧
    (pageOf (e.link.getD "#") = none →
      (processEntry pageOf e).description = sentinel) ∧
    (∀ feed : Feed, feed.bozoException = false → e ∈ feed.entries →
      processEntry pageOf e ∈ fetch_news pageOf feed) := by
  refine ⟨?_, ?_, ?_⟩
  · unfold processEntry
    rw [if_pos h]
  · intro hf
    unfold processEntry
    rw [if_pos h, hf]
    rfl
  · intro feed hb hmem
    unfold fetch_news
    rw [hb, if_neg Bool.false_ne_true]
    exact List.mem_map_of_mem _ hmem

/-- Witness for C2 (amended): a 5-character description triggers
enrichment; with the network failing, the returned item carries the
sentinel. -/
theorem processEntry_enrichment_witness :
    (processEntry (fun _ => none) entryShort).description = sentinel ∧
    processEntry (fun _ => none) entryShort
      ∈ fetch_news (fun _ => none) ⟨false, [entryShort]⟩ := by
  have h := processEntry_enrichment (fun _ => none) entryShort (by decide)
  exact ⟨h.2.1 rfl, h.2.2 ⟨false, [entryShort]⟩ rfl (List.mem_cons_self _ _)⟩

/-- Counterexample for C2 as stated: the entry's cleaned description is
`"Short"`; the page fetch fails, yet the returned item does not keep
`"Short"` — it carries the sentinel instead. -/
theorem fetch_news_short_description_replaced :
    (fetch_news (fun _ => none) ⟨false, [entryShort]⟩).map (fun i => i.description)
      = ["Content not available"] ∧
    ¬ (fetch_news (fun _ => none) ⟨false, [entryShort]⟩).map (fun i => i.description)
      = ["Short"] := by
  refine ⟨rfl, ?_⟩
  decide

/-- Claim C7 (amended): entries with missing fields do receive the
documented sentinels — `"No title"` for the title and `"#"` for the link —
but a missing description, after being set to `"No description"` (14
characters, below the 100-character bar), is immediately replaced by the
enrichment result for the link `"#"`; and fields that are present but
empty are kept, so returned items need not have non-empty fields. -/
theorem processEntry_missing_fields (pageOf : String → Option (List Node))
    (e : Entry) (ht : e.title = none) (hl : e.link = none)
    (hd : e.description = none) (hs : e.summary = none) :
    (processEntry pageOf e).title = "No title" ∧
    (processEntry pageOf e).link = "#" ∧
    (processEntry pageOf e).description = fetch_article_content (pageOf "#") 1000 ∧
    (∀ feed : Feed, feed.bozoException = false → e ∈ feed.entries →
      processEntry pageOf e ∈ fetch_news pageOf feed) := by
  have hdesc : initialDesc e = "No description" := by
    unfold initialDesc
    rw [hd, hs]
    decide
  have hlen : (initialDesc e).length < 100 := by
    rw [hdesc]
    decide
  refine ⟨?_, ?_, ?_, ?_⟩
  · unfold processEntry
    rw [if_pos hlen, ht]
    rfl
  · unfold processEntry
    rw [if_pos hlen, hl]
    rfl
  · unfold processEntry
    rw [if_pos hlen, hl]
    rfl
  · intro feed hb hmem
    unfold fetch_news
    rw [hb, if_neg Bool.false_ne_true]
    exact List.mem_map_of_mem _ hmem

/-- Witness for C7 (amended): the all-missing entry yields the title and
link sentinels, and (the fetch of `"#"` failing) the description sentinel
of the extractor rather than `"No description"`. -/
theorem processEntry_missing_fields_witness :
    (processEntry (fun _ => none) entryEmptyFields).title = "No title" ∧
    (processEntry (fun _ => none) entryEmptyFields).link = "#" ∧
    (processEntry (fun _ => none) entryEmptyFields).description = sentinel := by
  have h := processEntry_missing_fields (fun _ => none) entryEmptyFields rfl rfl rfl rfl
  exact ⟨h.1, h.2.1, h.2.2.1.trans rfl⟩

set_option maxRecDepth 8000 in
/-- Counterexample for C7 as stated: `feedEdge` holds an entry whose title
is present but empty — the returned item's title is `""`, not non-empty —
and an entry with no description, whose returned description is the
extractor sentinel, not `"No description"`. -/
theorem fetch_news_empty_title_possible :
    ((fetch_news (fun _ => none) feedEdge).map (fun i => i.title)).head? = some "" ∧
    ¬ (∀ item ∈ fetch_news (fun _ => none) feedEdge, ¬ item.title = "") ∧
    ¬ ((fetch_news (fun _ => none) feedEdge).map (fun i => i.description)).contains
        "No description" = true := by
  refine ⟨rfl, ?_, ?_⟩
  · decide
  · decide

/-- Claim C8: provided every document the HTML parser hands over is
well-formed (its text nodes carry no tag opener — which `html.parser`
guarantees, since a `<` followed by a letter or `/` always starts a tag),
every description in the list returned by `fetch_news` is free of raw HTML
markup, on the cleaning path and on the enrichment path alike. -/
theorem fetch_news_description_tagFree (pageOf : String → Option (List Node))
    (feed : Feed) (hp : ∀ url d, pageOf url = some d → DocWF d)
    (he : ∀ e ∈ feed.entries, EntryWF e) :
    ∀ item ∈ fetch_news pageOf feed, TagFree item.description := by
  intro item hitem
  unfold fetch_news at hitem
  split at hitem
  · cases hitem
  · obtain ⟨e, hmem, rfl⟩ := List.mem_map.mp hitem
    have hwf := he e hmem
    have hinit : TagFree (initialDesc e) := by
      unfold initialDesc
      cases hde : e.description with
      | some d =>
        rw [Option.getD_some]
        exact tagFree_clean_html (hwf.1 d hde)
      | none =>
        rw [Option.getD_none]
        cases hse : e.summary with
        | some d =>
          rw [Option.getD_some]
          exact tagFree_clean_html (hwf.2 d hse)
        | none =>
          rw [Option.getD_none]
          refine tagFree_clean_html ?_
          unfold DocWF
          decide
    unfold processEntry
    split
    · exact tagFree_fetch_article_content _ _ (fun d hd => hp _ d hd)
    · exact hinit

/-- Witness for C8: the concrete well-formed entry `entryC8`, with a
failing page oracle, yields a markup-free description. -/
theorem fetch_news_description_tagFree_witness :
    TagFree (processEntry (fun _ => none) entryC8).description := by
  have h := fetch_news_description_tagFree (fun _ => none) ⟨false, [entryC8]⟩
    (fun _ d hd => Option.noConfusion hd)
    (fun e hme => by
      rw [List.mem_singleton] at hme
      subst hme
      refine ⟨fun d hd => ?_, fun d hd => Option.noConfusion hd⟩
      have hd' : some [Node.element "p" [] [Node.text "Hello there"]] = some d := hd
      cases hd'
      unfold DocWF
      decide)
  exact h (processEntry (fun _ => none) entryC8)
    (List.mem_map_of_mem _ (List.mem_singleton_self _))

/-- Claim C1 (amended): `generate_voice_clone` always returns a non-null
path to an existing file (placeholder creation itself being assumed to
succeed), and the file is non-empty on the model-unavailable path (it holds
the 74-byte explanatory message) and on the successful-synthesis path
(given that the synthesizer writes non-empty audio and normalization does
not produce an empty file); but on the exception path — model construction
or `tts_to_file` raising — the returned placeholder is a fresh `mkstemp`
file of size exactly 0, so "size greater than 0" fails there. -/
theorem generate_voice_clone_result (env : VoiceEnv) (fs : FS) (tex cel : String) :
    ((generate_voice_clone env fs tex cel).1.isSome = true) ∧
    (∀ p, (generate_voice_clone env fs tex cel).1 = some p →
      (generate_voice_clone env fs tex cel).2.fileExists p = true) ∧
    (env.ttsAvailable = false →
      resultSize (generate_voice_clone env fs tex cel) = some tts_message.length) ∧
    (env.ttsAvailable = true → (env.initRaises = true ∨ env.ttsToFileRaises = true) →
      resultSize (generate_voice_clone env fs tex cel) = some 0) ∧
    (env.ttsAvailable = true → env.initRaises = false → env.ttsToFileRaises = false →
      resultSize (generate_voice_clone env fs tex cel) =
        some (if env.audioProcessingAvailable = true ∧ env.normalizeFails = false
                ∧ env.audioSize ≠ 0
              then env.normalizedSize else env.audioSize)) := by
  obtain ⟨tts, ir, tr, asz, apa, nf, nsz⟩ := env
  cases tts with
  | false =>
    refine ⟨rfl, ?_, ?_, ?_, ?_⟩
    · intro p hp
      injection hp with hpe
      subst hpe
      simp [generate_voice_clone, FS.mkstemp, FS.writeFile, FS.fileExists,
        List.lookup]
    · intro _
      simp [generate_voice_clone, FS.mkstemp, FS.writeFile, resultSize,
        FS.fileSize, List.lookup]
    · intro h
      exact Bool.noConfusion h
    · intro h
      exact Bool.noConfusion h
  | true =>
    cases ir with
    | true =>
      refine ⟨rfl, ?_, ?_, ?_, ?_⟩
      · intro p hp
        injection hp with hpe
        subst hpe
        simp [generate_voice_clone, FS.mkstemp, FS.fileExists, List.lookup]
      · intro h
        exact Bool.noConfusion h
      · intro _ _
        simp [generate_voice_clone, FS.mkstemp, resultSize, FS.fileSize,
          List.lookup]
      · intro _ h _
        exact Bool.noConfusion h
    | false =>
      cases tr with
      | true =>
        refine ⟨rfl, ?_, ?_, ?_, ?_⟩
        · simp only [generate_voice_clone]
          generalize get_reference_audio_path fs cel = X
          obtain ⟨r, fsX⟩ := X
          intro p hp
          injection hp with hpe
          subst hpe
          simp [FS.mkstemp, FS.fileExists, List.lookup]
        · intro h
          exact Bool.noConfusion h
        · intro _ _
          simp only [generate_voice_clone]
          generalize get_reference_audio_path fs cel = X
          obtain ⟨r, fsX⟩ := X
          simp [FS.mkstemp, resultSize, FS.fileSize, List.lookup]
        · intro _ _ h
          exact Bool.noConfusion h
      | false =>
        have hvac : ∀ C : Prop, (false = true ∨ false = true) → C := by
          intro C hc
          rcases hc with hc | hc <;> exact Bool.noConfusion hc
        cases apa with
        | false =>
          refine ⟨rfl, ?_, ?_, fun _ h => hvac _ h, ?_⟩
          · simp only [generate_voice_clone]
            generalize get_reference_audio_path fs cel = X
            obtain ⟨r, fsX⟩ := X
            intro p hp
            injection hp with hpe
            subst hpe
            simp [FS.mkstemp, FS.writeFile, FS.fileExists, List.lookup]
          · intro h
            exact Bool.noConfusion h
          · intro _ _ _
            simp only [generate_voice_clone]
            generalize get_reference_audio_path fs cel = X
            obtain ⟨r, fsX⟩ := X
            simp [FS.mkstemp, FS.writeFile, resultSize, FS.fileSize, List.lookup]
        | true =>
          cases nf with
          | true =>
            refine ⟨rfl, ?_, ?_, fun _ h => hvac _ h, ?_⟩
            · simp only [generate_voice_clone]
              generalize get_reference_audio_path fs cel = X
              obtain ⟨r, fsX⟩ := X
              intro p hp
              injection hp with hpe
              subst hpe
              cases asz with
              | zero =>
                simp [FS.mkstemp, FS.writeFile, FS.fileExists, process_audio,
                  List.lookup]
              | succ k =>
                simp [FS.mkstemp, FS.writeFile, FS.fileExists, process_audio,
                  List.lookup]
            · intro h
              exact Bool.noConfusion h
            · intro _ _ _
              simp only [generate_voice_clone]
              generalize get_reference_audio_path fs cel = X
              obtain ⟨r, fsX⟩ := X
              cases asz with
              | zero =>
                simp [FS.mkstemp, FS.writeFile, resultSize, FS.fileSize,
                  process_audio, List.lookup]
              | succ k =>
                simp [FS.mkstemp, FS.writeFile, resultSize, FS.fileSize,
                  process_audio, List.lookup]
          | false =>
            refine ⟨rfl, ?_, ?_, fun _ h => hvac _ h, ?_⟩
            · simp only [generate_voice_clone]
              generalize get_reference_audio_path fs cel = X
              obtain ⟨r, fsX⟩ := X
              intro p hp
              injection hp with hpe
              subst hpe
              cases asz with
              | zero =>
                simp [FS.mkstemp, FS.writeFile, FS.fileExists, process_audio,
                  List.lookup]
              | succ k =>
                simp [FS.mkstemp, FS.writeFile, FS.fileExists, process_audio,
                  List.lookup]
            · intro h
              exact Bool.noConfusion h
            · intro _ _ _
              simp only [generate_voice_clone]
              generalize get_reference_audio_path fs cel = X
              obtain ⟨r, fsX⟩ := X
              cases asz with
              | zero =>
                simp [FS.mkstemp, FS.writeFile, resultSize, FS.fileSize,
                  process_audio, List.lookup]
              | succ k =>
                simp [FS.mkstemp, FS.writeFile, resultSize, FS.fileSize,
                  process_audio, List.lookup]

/-- Witness for C1 (amended): with the TTS package absent, the placeholder
file at the returned path has the message's size, 74 bytes. -/
theorem generate_voice_clone_result_witness :
    resultSize (generate_voice_clone ⟨false, false, false, 0, false, false, 0⟩
      ⟨[], [], 0⟩ "hi" "Oprah Winfrey") = some tts_message.length :=
  (generate_voice_clone_result ⟨false, false, false, 0, false, false, 0⟩
    ⟨[], [], 0⟩ "hi" "Oprah Winfrey").2.2.1 rfl

/-- Counterexample for C1 as stated: with TTS available but model
construction raising, a path is returned but the file at it has size 0,
not greater than 0. -/
theorem generate_voice_clone_error_path_empty :
    (generate_voice_clone ⟨true, true, false, 9, false, false, 9⟩ ⟨[], [], 0⟩
      "hello" "Morgan Freeman").1.isSome = true ∧
    resultSizePos (generate_voice_clone ⟨true, true, false, 9, false, false, 9⟩
      ⟨[], [], 0⟩ "hello" "Morgan Freeman") = false := ⟨rfl, rfl⟩
